import Mathlib

/-!
Verification of the ledger aggregation and filtering engine of the
bet-tracker dashboard (`src/app.py`).

The script loads a CSV into a dataframe `df` (missing cells filled with
`""`, date columns coerced with `errors="coerce"` so bad dates become
`NaT`), then:

* filters `df` by a person selector (substring containment of the
  selected string in any of the four identity columns, case-insensitive,
  `na=False`) and by a status selector (exact equality), lines 57-71;
* sorts the filtered view by `["Status", "Bet Date"]` both descending,
  `NaT` last (line 73);
* computes the scoreboard over the FULL `df` (`p_df = df`): for each
  member of `MAIN_CAST`, wins / losses / unpaid are counts of rows whose
  `Winner` (resp. `Loser`) column contains the member's first name,
  case-insensitively, and `pct = wins / total * 100` guarded by
  `total > 0` (lines 77-99), then sorts the rows by `Wins` descending
  (line 101);
* resolves the selected `Bet ID` by `view_df[view_df['Bet ID'] == id].iloc[0]`
  (line 135); `.iloc[0]` on an empty selection raises `IndexError`.

Rows are `BetRecord`s; dates are `Option Int` timestamps with `none`
playing the role of `NaT`.  Floats in the win-percentage computation are
modelled by `ℚ` (the counts involved are small integers).  The two
`sort_values` calls are modelled by a stable sort; for the 6-row
scoreboard frame numpy's introsort takes its insertion-sort path, which
is stable and deterministic.
-/

/-- One row of the ledger, after `load_data` (`fillna("")`, date coercion).
`betDate`/`decisionDate` are `none` when the source value was missing or
unparseable (`NaT`). -/
structure BetRecord where
  betId : String
  betDate : Option Int
  decisionDate : Option Int
  proposer : String
  acceptor : String
  winner : String
  loser : String
  status : String
  stake : String
  summary : String
  deriving DecidableEq, Repr

/-- Apostrophe character (0x27), used in the fourth cast name. -/
def apos : Char := Char.ofNat 39

/-- The hardcoded `MAIN_CAST` list of `app.py` line 8. -/
def MAIN_CAST : List String :=
  ["Dan Patrick", "Paulie Pabst", "Todd Fritz",
   "Seton O" ++ ⟨[apos]⟩ ++ "Connor", "Marvin Prince", "Dylan"]

/-- Lower-case a string at the character level (models `case=False`). -/
def lowerChars (s : String) : List Char := s.data.map Char.toLower

/-- Does `pat` match at the start of `target`? -/
def matchAt : List Char → List Char → Bool
  | [], _ => true
  | _ :: _, [] => false
  | c :: cs, d :: ds => c == d && matchAt cs ds

/-- Does `pat` occur contiguously somewhere in `target`?  (Python's
`pat in target`; the empty pattern occurs in everything.) -/
def occursIn : List Char → List Char → Bool
  | pat, [] => pat.isEmpty
  | pat, d :: ds => matchAt pat (d :: ds) || occursIn pat ds

/-- One cell of `Series.str.contains(pat, case=False, na=False)`: the
pattern occurs in the cell, case-insensitively.  (`na=False` is vacuous
here because `load_data` has already replaced missing cells by `""`.) -/
def containsCI (field pat : String) : Bool :=
  occursIn (lowerChars pat) (lowerChars field)

/-- The person mask of lines 60-65: the selected string occurs in any of
the four identity columns. -/
def personMask (sel : String) (r : BetRecord) : Bool :=
  containsCI r.proposer sel || containsCI r.acceptor sel ||
  containsCI r.winner sel || containsCI r.loser sel

/-- Filter logic of lines 57-71: person mask when the person selector is
not `"All"`, then exact status equality when the status selector is not
`"All"`. -/
def filterLedger (df : List BetRecord) (selPerson selStatus : String) :
    List BetRecord :=
  let v := if selPerson = "All" then df else df.filter (personMask selPerson)
  if selStatus = "All" then v else v.filter (fun r => r.status == selStatus)

/-- Lexicographic order on character lists, as pandas compares the
`Status` strings.  (Core `String.lt` is iterator-based and does not
reduce in the kernel, so the comparison is spelled out structurally.) -/
def strLtB : List Char → List Char → Bool
  | [], [] => false
  | [], _ :: _ => true
  | _ :: _, [] => false
  | c :: cs, d :: ds => if c < d then true else if d < c then false else strLtB cs ds

/-- Lexicographic order on strings (the order `sort_values` uses on the
`Status` column). -/
def statusLT (a b : String) : Bool := strLtB a.data b.data

/-- Descending key on the `Bet Date` column: `none` (`NaT`) is placed
after every real date (pandas `na_position="last"`). -/
def dateGE : Option Int → Option Int → Bool
  | some x, some y => decide (y ≤ x)
  | some _, none => true
  | none, some _ => false
  | none, none => true

/-- Comparator for `sort_values(by=["Status", "Bet Date"],
ascending=[False, False])` (line 73): status descending in the
lexicographic string order, ties broken by date descending with `NaT`
last. -/
def viewLE (a b : BetRecord) : Bool :=
  if a.status = b.status then dateGE a.betDate b.betDate
  else statusLT b.status a.status

/-- `viewLE` as a decidable relation. -/
def viewRel (a b : BetRecord) : Prop := viewLE a b = true

instance : DecidableRel viewRel :=
  fun a b => inferInstanceAs (Decidable (viewLE a b = true))

/-- The sorted view of line 73. -/
def sortView (v : List BetRecord) : List BetRecord :=
  List.insertionSort viewRel v

/-- One scoreboard row (the numeric `pct` before `f"{pct:.1f}%"`
formatting, which is presentation). -/
structure PersonStats where
  name : String
  wins : Nat
  losses : Nat
  winPct : ℚ
  unpaid : Nat
  deriving DecidableEq, Repr

/-- `person.split()[0]` for the roster names (which never start with
whitespace): the characters before the first space. -/
def firstWord (s : String) : String := ⟨s.data.takeWhile (fun c => c ≠ ' ')⟩

/-- Line 86: rows whose `Winner` column contains the member's first
name, case-insensitively. -/
def pwins (df : List BetRecord) (person : String) : Nat :=
  (df.filter (fun r => containsCI r.winner (firstWord person))).length

/-- Line 89: rows whose `Loser` column contains the member's first name. -/
def plosses (df : List BetRecord) (person : String) : Nat :=
  (df.filter (fun r => containsCI r.loser (firstWord person))).length

/-- Lines 92-95: losing rows whose status is exactly `"Unpaid"`. -/
def punpaid (df : List BetRecord) (person : String) : Nat :=
  (df.filter
    (fun r => containsCI r.loser (firstWord person) && r.status == "Unpaid")).length

/-- Lines 97-98: `pct = wins / total * 100 if total > 0 else 0.0`. -/
def winPctQ (w l : Nat) : ℚ :=
  if 0 < w + l then (w : ℚ) / ((w : ℚ) + (l : ℚ)) * 100 else 0

/-- The scoreboard row of lines 78-99 for one cast member, computed over
the whole dataframe (`p_df = df`). -/
def personStats (df : List BetRecord) (person : String) : PersonStats :=
  { name := person
    wins := pwins df person
    losses := plosses df person
    winPct := winPctQ (pwins df person) (plosses df person)
    unpaid := punpaid df person }

/-- The `stats` list built in roster order (lines 77-99). -/
def statsRows (df : List BetRecord) : List PersonStats :=
  MAIN_CAST.map (personStats df)

/-- Comparator for `sort_values("Wins", ascending=False)` (line 101). -/
def statsLE (a b : PersonStats) : Bool := decide (b.wins ≤ a.wins)

/-- `statsLE` as a decidable relation. -/
def statsRel (a b : PersonStats) : Prop := statsLE a b = true

instance : DecidableRel statsRel :=
  fun a b => inferInstanceAs (Decidable (statsLE a b = true))

/-- The displayed scoreboard: stats rows sorted by wins descending. -/
def scoreboard (df : List BetRecord) : List PersonStats :=
  List.insertionSort statsRel (statsRows df)

/-- A Python exception escaping the detail inspector. -/
inductive PyErr
  | indexError
  deriving DecidableEq, Repr

instance : DecidableEq (Except PyErr BetRecord)
  | .error a, .error b =>
    if h : a = b then .isTrue (by rw [h])
    else .isFalse (fun hh => h (Except.error.inj hh))
  | .error _, .ok _ => .isFalse (by simp)
  | .ok _, .error _ => .isFalse (by simp)
  | .ok a, .ok b =>
    if h : a = b then .isTrue (by rw [h])
    else .isFalse (fun hh => h (Except.ok.inj hh))

/-- Line 135, `v[v['Bet ID'] == betId].iloc[0]`: the first row of `v`
whose id matches, and an `IndexError` when the selection is empty. -/
def resolve (v : List BetRecord) (betId : String) : Except PyErr BetRecord :=
  match v.filter (fun r => r.betId == betId) with
  | [] => .error .indexError
  | r :: _ => .ok r

/-- The `view_df` actually consulted at line 135: the filtered, sorted
view. -/
def viewOf (df : List BetRecord) (selPerson selStatus : String) :
    List BetRecord :=
  sortView (filterLedger df selPerson selStatus)

/-- The detail lookup as the script performs it: `resolve` against the
current `view_df`, not against the full `df`. -/
def resolveView (df : List BetRecord) (selPerson selStatus betId : String) :
    Except PyErr BetRecord :=
  resolve (viewOf df selPerson selStatus) betId

/-- Everything one page render derives from the ledger and the two
sidebar selectors. -/
structure RenderOut where
  view : List BetRecord
  board : List PersonStats
  deriving Repr

/-- One render: the filtered sorted history table and the scoreboard. -/
def render (df : List BetRecord) (selPerson selStatus : String) : RenderOut :=
  { view := viewOf df selPerson selStatus, board := scoreboard df }

/-- A blank record template for the concrete scenarios. -/
def blank : BetRecord :=
  { betId := "", betDate := none, decisionDate := none, proposer := "",
    acceptor := "", winner := "", loser := "", status := "", stake := "",
    summary := "" }

/-- Scenario row 1 of spec section 8. -/
def row1 : BetRecord :=
  { blank with
    betId := "BET-001"
    winner := "Paul S."
    loser := "Todd"
    status := "Unpaid" }

/-- Scenario row 2 of spec section 8. -/
def row2 : BetRecord :=
  { blank with
    betId := "BET-002"
    winner := "Dan Patrick"
    loser := "Marvin"
    status := "Paid" }

/-- Scenario row 3 of spec section 8. -/
def row3 : BetRecord :=
  { blank with betId := "BET-003", status := "Pending" }

/-- The 3-row scenario ledger of spec section 8. -/
def scenarioLedger : List BetRecord := [row1, row2, row3]

/-- A record with status `"Unpaid"`, for the sort-order scenarios. -/
def recU : BetRecord := { blank with betId := "U1", status := "Unpaid" }

/-- A record with status `"Paid"`. -/
def recP : BetRecord := { blank with betId := "P1", status := "Paid" }

/-- A record with status `"Void"`, a status outside {Paid, Unpaid,
Pending} that is lexicographically above `"Unpaid"`. -/
def recV : BetRecord := { blank with betId := "V1", status := "Void" }

/-! ### Order lemmas for the comparators -/

/-- Lexicographic order on char lists is irreflexive. -/
theorem strLtB_irrefl : ∀ xs, strLtB xs xs = false
  | [] => rfl
  | c :: cs => by simp [strLtB, lt_irrefl, strLtB_irrefl cs]

/-- Lexicographic order on char lists is asymmetric. -/
theorem strLtB_asymm {xs ys : List Char} (h : strLtB xs ys = true)
    (h2 : strLtB ys xs = true) : False := by
  induction xs generalizing ys with
  | nil => cases ys <;> simp [strLtB] at h h2
  | cons c cs ih =>
    cases ys with
    | nil => simp [strLtB] at h
    | cons d ds =>
      by_cases hcd : c < d
      · simp [strLtB, hcd, lt_asymm hcd] at h2
      · by_cases hdc : d < c
        · simp [strLtB, hcd, hdc] at h
        · simp [strLtB, hcd, hdc] at h h2
          exact ih h h2

/-- Lexicographic order on char lists is transitive. -/
theorem strLtB_trans {xs ys zs : List Char} (h : strLtB xs ys = true)
    (h2 : strLtB ys zs = true) : strLtB xs zs = true := by
  induction xs generalizing ys zs with
  | nil =>
    cases zs with
    | nil => cases ys <;> simp [strLtB] at h h2
    | cons z zs2 => simp [strLtB]
  | cons c cs ih =>
    cases ys with
    | nil => simp [strLtB] at h
    | cons d ds =>
      cases zs with
      | nil => simp [strLtB] at h2
      | cons e es =>
        by_cases hcd : c < d
        · by_cases hde : d < e
          · simp [strLtB, lt_trans hcd hde]
          · by_cases hed : e < d
            · simp [strLtB, hde, hed] at h2
            · have hde2 : d = e := le_antisymm (not_lt.mp hed) (not_lt.mp hde)
              subst hde2
              simp [strLtB, hcd]
        · by_cases hdc : d < c
          · simp [strLtB, hcd, hdc] at h
          · have hcd2 : c = d := le_antisymm (not_lt.mp hdc) (not_lt.mp hcd)
            subst hcd2
            simp [strLtB, lt_irrefl] at h
            by_cases hce : c < e
            · simp [strLtB, hce]
            · by_cases hec : e < c
              · simp [strLtB, hce, hec] at h2
              · have hce2 : c = e := le_antisymm (not_lt.mp hec) (not_lt.mp hce)
                subst hce2
                simp [strLtB, lt_irrefl] at h2
                simp [strLtB, lt_irrefl]
                exact ih h h2

/-- Lexicographic order on char lists is total on distinct lists. -/
theorem strLtB_total {xs ys : List Char} (h : xs ≠ ys) :
    strLtB xs ys = true ∨ strLtB ys xs = true := by
  induction xs generalizing ys with
  | nil =>
    cases ys with
    | nil => exact absurd rfl h
    | cons d ds => left; simp [strLtB]
  | cons c cs ih =>
    cases ys with
    | nil => right; simp [strLtB]
    | cons d ds =>
      by_cases hcd : c < d
      · left; simp [strLtB, hcd]
      · by_cases hdc : d < c
        · right; simp [strLtB, hdc]
        · have hce : c = d := le_antisymm (not_lt.mp hdc) (not_lt.mp hcd)
          subst hce
          have hne : cs ≠ ds := fun hh => h (by rw [hh])
          rcases ih hne with h1 | h1
          · left; simp [strLtB, lt_irrefl, h1]
          · right; simp [strLtB, lt_irrefl, h1]

/-- The descending date key is total. -/
theorem dateGE_total (x y : Option Int) : dateGE x y = true ∨ dateGE y x = true := by
  cases x <;> cases y <;> simp [dateGE]
  all_goals omega

/-- The descending date key is transitive. -/
theorem dateGE_trans {x y z : Option Int} (h : dateGE x y = true)
    (h2 : dateGE y z = true) : dateGE x z = true := by
  cases x <;> cases y <;> cases z <;> simp [dateGE] at *
  all_goals omega

/-- The view comparator is total. -/
theorem viewRel_total : ∀ a b, viewRel a b ∨ viewRel b a := by
  intro a b
  unfold viewRel viewLE
  by_cases h : a.status = b.status
  · rw [if_pos h, if_pos h.symm]
    exact dateGE_total _ _
  · rw [if_neg h, if_neg (fun hh => h hh.symm)]
    unfold statusLT
    have hne : b.status.data ≠ a.status.data :=
      fun hh => h (String.ext hh).symm
    exact strLtB_total hne

/-- The view comparator is transitive. -/
theorem viewRel_trans : ∀ a b c, viewRel a b → viewRel b c → viewRel a c := by
  intro a b c h1 h2
  unfold viewRel viewLE at h1 h2 ⊢
  by_cases hab : a.status = b.status
  · by_cases hbc : b.status = c.status
    · have hac : a.status = c.status := hab.trans hbc
      rw [if_pos hab] at h1
      rw [if_pos hbc] at h2
      rw [if_pos hac]
      exact dateGE_trans h1 h2
    · have hac : a.status ≠ c.status := fun hh => hbc (hab.symm.trans hh)
      rw [if_neg hbc] at h2
      rw [if_neg hac]
      unfold statusLT at h2 ⊢
      rw [congrArg String.data hab]
      exact h2
  · by_cases hbc : b.status = c.status
    · have hac : a.status ≠ c.status := fun hh => hab (hh.trans hbc.symm)
      rw [if_neg hab] at h1
      rw [if_neg hac]
      unfold statusLT at h1 ⊢
      rw [← congrArg String.data hbc]
      exact h1
    · rw [if_neg hab] at h1
      rw [if_neg hbc] at h2
      unfold statusLT at h1 h2
      have h3 := strLtB_trans h2 h1
      by_cases hac : a.status = c.status
      · exfalso
        rw [congrArg String.data hac.symm] at h3
        rw [strLtB_irrefl] at h3
        exact Bool.noConfusion h3
      · rw [if_neg hac]
        unfold statusLT
        exact h3

/-- The scoreboard comparator is total. -/
theorem statsRel_total : ∀ a b, statsRel a b ∨ statsRel b a := by
  intro a b
  simp only [statsRel, statsLE, decide_eq_true_eq]
  exact Nat.le_total b.wins a.wins

/-- The scoreboard comparator is transitive. -/
theorem statsRel_trans : ∀ a b c, statsRel a b → statsRel b c → statsRel a c := by
  intro a b c h1 h2
  simp only [statsRel, statsLE, decide_eq_true_eq] at h1 h2 ⊢
  omega

/-! ### Helper lemmas on the resolver, the filter and the counts -/

/-- When no row of `v` bears the requested id, the selection
`v[v['Bet ID'] == betId]` is empty and `.iloc[0]` raises. -/
theorem resolve_absent (v : List BetRecord) (bid : String)
    (h : ∀ r ∈ v, r.betId ≠ bid) :
    resolve v bid = .error .indexError := by
  have hf : v.filter (fun r => r.betId == bid) = [] := by
    rw [List.filter_eq_nil_iff]
    intro a ha
    simpa using h a ha
  unfold resolve
  rw [hf]

/-- A successfully resolved record comes from the searched frame and
bears the requested id. -/
theorem resolve_ok_mem {v : List BetRecord} {bid : String} {r : BetRecord}
    (h : resolve v bid = .ok r) : r ∈ v ∧ r.betId = bid := by
  unfold resolve at h
  cases hfl : v.filter (fun q => q.betId == bid) with
  | nil =>
    rw [hfl] at h
    exact absurd h (by simp)
  | cons q t =>
    rw [hfl] at h
    have hqr : q = r := by simpa using h
    subst hqr
    have hq : q ∈ v.filter (fun q => q.betId == bid) := by
      rw [hfl]
      exact List.mem_cons_self q t
    have hm := List.mem_filter.mp hq
    exact ⟨hm.1, by simpa using hm.2⟩

/-- A nonempty pattern never occurs in an empty cell. -/
theorem containsCI_empty_field {p : String} (hp : p ≠ "") :
    containsCI "" p = false := by
  have hdata : p.data ≠ [] := by
    intro hd
    exact hp (String.ext hd)
  have hlc : lowerChars p ≠ [] := by
    unfold lowerChars
    simpa using hdata
  show occursIn (lowerChars p) (lowerChars "") = false
  cases hpat : lowerChars p with
  | nil => exact absurd hpat hlc
  | cons c cs => rfl

/-- Picking two positions of a list in order yields a two-element
sublist. -/
theorem pair_get_sublist :
    ∀ (l : List α) (i j : Nat) (hi : i < l.length) (hj : j < l.length),
      i < j → List.Sublist [l.get ⟨i, hi⟩, l.get ⟨j, hj⟩] l := by
  intro l
  induction l with
  | nil =>
    intro i j hi
    exact absurd hi (by simp)
  | cons a t ih =>
    intro i j hi hj hij
    cases i with
    | zero =>
      cases j with
      | zero => exact absurd hij (lt_irrefl 0)
      | succ j2 =>
        exact List.Sublist.cons₂ a
          (List.singleton_sublist.mpr (List.get_mem t j2 (by simpa using hj)))
    | succ i2 =>
      cases j with
      | zero => exact absurd hij (by omega)
      | succ j2 =>
        exact List.Sublist.cons a
          (ih i2 j2 (by simpa using hi) (by simpa using hj) (by omega))

/-- Bounds and defining equations of the win-percentage formula. -/
theorem winPctQ_bounds (w l : Nat) :
    0 ≤ winPctQ w l ∧ winPctQ w l ≤ 100 ∧
    (w + l = 0 → winPctQ w l = 0) ∧
    (0 < w + l → winPctQ w l = (w : ℚ) / ((w : ℚ) + (l : ℚ)) * 100) := by
  by_cases h : 0 < w + l
  · have hden : (0 : ℚ) < (w : ℚ) + (l : ℚ) := by
      have : (0 : ℚ) < ((w + l : ℕ) : ℚ) := by exact_mod_cast h
      push_cast at this
      exact this
    have hval : winPctQ w l = (w : ℚ) / ((w : ℚ) + (l : ℚ)) * 100 := by
      unfold winPctQ
      rw [if_pos h]
    refine ⟨?_, ?_, ?_, fun _ => hval⟩
    · rw [hval]
      positivity
    · rw [hval]
      have hw : (w : ℚ) ≤ (w : ℚ) + (l : ℚ) := by
        have : (0 : ℚ) ≤ (l : ℚ) := by positivity
        linarith
      have hle1 : (w : ℚ) / ((w : ℚ) + (l : ℚ)) ≤ 1 := (div_le_one hden).mpr hw
      calc (w : ℚ) / ((w : ℚ) + (l : ℚ)) * 100 ≤ 1 * 100 :=
            mul_le_mul_of_nonneg_right hle1 (by norm_num)
        _ = 100 := one_mul 100
    · intro h0
      omega
  · have hval : winPctQ w l = 0 := by
      unfold winPctQ
      rw [if_neg h]
    refine ⟨by rw [hval], by rw [hval]; norm_num, fun _ => hval, fun hpos => absurd hpos h⟩

/-! ### Claim theorems -/

/-- Claim C1, counterexample: on the scenario ledger the detail lookup
for the absent id `"BET-999"` raises `IndexError` (`.iloc[0]` on an
empty selection); it does not return a typed not-found result. -/
theorem resolve_absent_id_throws_cex :
    resolve scenarioLedger "BET-999" = Except.error PyErr.indexError := by
  decide

/-- Claim C1, amended: for every frame and every id carried by none of
its rows, the detail lookup deterministically raises `IndexError`
(always the same exception value for the same frame) instead of
returning a typed not-found result. -/
theorem resolve_absent_id_raises (v : List BetRecord) (bid : String)
    (h : ∀ r ∈ v, r.betId ≠ bid) :
    resolve v bid = Except.error PyErr.indexError :=
  resolve_absent v bid h

/-- Claim C1, witness: the amended theorem applied to a concrete frame
and a concrete absent id. -/
theorem resolve_absent_id_raises_witness :
    resolve [row2] "BET-001" = Except.error PyErr.indexError :=
  resolve_absent_id_raises [row2] "BET-001" (by decide)

/-- Claim C2, counterexample: with the ledger of spec section 8, the id
`"BET-001"` is present in the full ledger, yet the lookup result differs
between the filter choices (All, All) and (Marvin, All): the detail
lookup reads the filtered `view_df`, not the full ledger. -/
theorem resolveView_filter_dependent_cex :
    resolveView scenarioLedger "All" "All" "BET-001" ≠
      resolveView scenarioLedger "Marvin" "All" "BET-001" := by
  decide

/-- Claim C2, amended: the detail lookup is an exact id match against
the filtered, sorted view: a returned record always belongs to the
current view and bears the requested id, and an id matching no record of
the view (even one present in the full ledger) raises `IndexError`. -/
theorem resolveView_reads_filtered_view (df : List BetRecord)
    (p s bid : String) :
    (∀ r, resolveView df p s bid = Except.ok r →
      r ∈ viewOf df p s ∧ r.betId = bid) ∧
    ((∀ r ∈ viewOf df p s, r.betId ≠ bid) →
      resolveView df p s bid = Except.error PyErr.indexError) := by
  constructor
  · intro r hr
    exact resolve_ok_mem hr
  · intro h
    exact resolve_absent (viewOf df p s) bid h

/-- Claim C2, witness: the amended theorem applied at the scenario
ledger with the identity filter and a present id. -/
theorem resolveView_reads_filtered_view_witness :
    row1 ∈ viewOf scenarioLedger "All" "All" ∧ row1.betId = "BET-001" :=
  (resolveView_reads_filtered_view scenarioLedger "All" "All" "BET-001").1
    row1 (by decide)

/-- Claim C4, counterexample: over the raw scenario ledger the scoreboard
credits Paulie Pabst with 0 wins, not 1: no normalization maps
`"Paul S."` to `"Paulie Pabst"`, and the first name `"Paulie"` is not a
substring of `"Paul S."`. -/
theorem scenario_paulie_wins_cex :
    (personStats scenarioLedger "Paulie Pabst").wins ≠ 1 := by
  decide

/-- Claim C4, amended: on the 3-row scenario ledger the aggregation
yields Paulie Pabst wins=0 and losses=0 (the win on `"Paul S."` is
missed), Todd Fritz wins=0, losses=1, unpaid=1, Dan Patrick wins=1, and
Marvin Prince losses=1, unpaid=0. -/
theorem scenario_scoreboard :
    (personStats scenarioLedger "Paulie Pabst").wins = 0 ∧
    (personStats scenarioLedger "Paulie Pabst").losses = 0 ∧
    (personStats scenarioLedger "Todd Fritz").wins = 0 ∧
    (personStats scenarioLedger "Todd Fritz").losses = 1 ∧
    (personStats scenarioLedger "Todd Fritz").unpaid = 1 ∧
    (personStats scenarioLedger "Dan Patrick").wins = 1 ∧
    (personStats scenarioLedger "Marvin Prince").losses = 1 ∧
    (personStats scenarioLedger "Marvin Prince").unpaid = 0 := by
  decide

/-- Claim C5: the scoreboard a render publishes is computed from the
full ledger (`p_df = df`) and is therefore identical under any two
choices of the person and status selectors. -/
theorem scoreboard_filter_invariant (df : List BetRecord)
    (p1 s1 p2 s2 : String) :
    (render df p1 s1).board = (render df p2 s2).board := rfl

/-- Claim C6: the win percentage always lies in [0, 100]; it equals
`wins / (wins + losses) * 100` when at least one bet was decided and is
exactly 0 when none was. -/
theorem winPct_bounds (df : List BetRecord) (p : String) :
    0 ≤ (personStats df p).winPct ∧ (personStats df p).winPct ≤ 100 ∧
    ((personStats df p).wins + (personStats df p).losses = 0 →
      (personStats df p).winPct = 0) ∧
    (0 < (personStats df p).wins + (personStats df p).losses →
      (personStats df p).winPct =
        ((personStats df p).wins : ℚ) /
          (((personStats df p).wins : ℚ) + ((personStats df p).losses : ℚ))
          * 100) :=
  winPctQ_bounds (pwins df p) (plosses df p)

/-- Claim C6, witness: the bounds and the division formula evaluated for
Dan Patrick on the scenario ledger (1 win, 0 losses). -/
theorem winPct_bounds_witness :
    0 < (personStats scenarioLedger "Dan Patrick").wins +
        (personStats scenarioLedger "Dan Patrick").losses ∧
    (personStats scenarioLedger "Dan Patrick").winPct =
      ((personStats scenarioLedger "Dan Patrick").wins : ℚ) /
        (((personStats scenarioLedger "Dan Patrick").wins : ℚ) +
          ((personStats scenarioLedger "Dan Patrick").losses : ℚ)) * 100 :=
  ⟨by decide, (winPct_bounds scenarioLedger "Dan Patrick").2.2.2 (by decide)⟩

/-- Claim C8: with both selectors at the `"All"` sentinel the filter
returns the full ledger unchanged, in its original order. -/
theorem filter_all_all_identity (df : List BetRecord) :
    filterLedger df "All" "All" = df := by
  simp [filterLedger]

/-- Claim C9, counterexample: filtering the raw scenario ledger by
person `"Todd Fritz"` does not return row 1: the ledger is never
normalized, and the selected string `"Todd Fritz"` occurs in none of the
identity cells of row 1 (whose loser cell is just `"Todd"`). -/
theorem todd_fritz_filter_cex :
    filterLedger scenarioLedger "Todd Fritz" "All" ≠ [row1] := by
  decide

/-- Claim C9, amended: the person filter includes a row when the
selected string occurs inside one of its identity cells, so over the raw
scenario ledger the canonical selection `"Todd Fritz"` matches nothing,
while the raw selection `"Todd"` returns exactly row 1. -/
theorem todd_filter_scenario :
    filterLedger scenarioLedger "Todd Fritz" "All" = [] ∧
    filterLedger scenarioLedger "Todd" "All" = [row1] := by
  decide

/-- Claim C10: under any person selector that is a nonempty literal name
(not the `"All"` sentinel), a record whose four identity fields are all
the empty-string sentinel is never included in the filtered result; the
mask is total on such records (no exception), which the totality of
`filterLedger` expresses. -/
theorem blank_identity_never_matched (df : List BetRecord) (p s : String)
    (r : BetRecord) (hAll : p ≠ "All") (hp : p ≠ "")
    (h1 : r.proposer = "") (h2 : r.acceptor = "") (h3 : r.winner = "")
    (h4 : r.loser = "") : r ∉ filterLedger df p s := by
  intro hmem
  have hv : r ∈ df.filter (personMask p) := by
    unfold filterLedger at hmem
    rw [if_neg hAll] at hmem
    by_cases hs : s = "All"
    · rwa [if_pos hs] at hmem
    · rw [if_neg hs] at hmem
      exact (List.mem_filter.mp hmem).1
  have hmask : personMask p r = true := (List.mem_filter.mp hv).2
  rw [personMask, h1, h2, h3, h4, containsCI_empty_field hp] at hmask
  simp at hmask

/-- Claim C10, witness: the theorem applied to a concrete ledger holding
only the blank record, with selector `"Todd"`. -/
theorem blank_identity_never_matched_witness :
    blank ∉ filterLedger [blank] "Todd" "All" :=
  blank_identity_never_matched [blank] "Todd" "All" blank (by decide)
    (by decide) rfl rfl rfl rfl

/-- Claim C3, counterexample: a record with the out-of-catalogue status
`"Void"` sorts BEFORE the `"Unpaid"` record, because the primary key is
plain descending lexicographic order on the status string, not an
Unpaid-first rank; the claim fails for the open-ended status set. -/
theorem unpaid_not_always_first_cex :
    sortView [recU, recV] = [recV, recU] ∧ recU.status = "Unpaid" ∧
    recV.status ≠ "Unpaid" := by
  decide

/-- Claim C3, amended: in the sorted view, an `"Unpaid"` record precedes
every record whose status is lexicographically BELOW `"Unpaid"` (which
covers `"Paid"` and `"Pending"` but not statuses above it such as
`"Void"`), and within equal status the placed dates are descending with
unknown dates last. -/
theorem sortView_order (v : List BetRecord) :
    (∀ i j (hi : i < (sortView v).length) (hj : j < (sortView v).length),
      ((sortView v).get ⟨i, hi⟩).status = "Unpaid" →
      statusLT ((sortView v).get ⟨j, hj⟩).status "Unpaid" = true →
      i < j) ∧
    (∀ i j (hi : i < (sortView v).length) (hj : j < (sortView v).length),
      i < j →
      ((sortView v).get ⟨i, hi⟩).status = ((sortView v).get ⟨j, hj⟩).status →
      dateGE ((sortView v).get ⟨i, hi⟩).betDate
        ((sortView v).get ⟨j, hj⟩).betDate = true) := by
  have hs : List.Sorted viewRel (sortView v) :=
    @List.sorted_insertionSort _ viewRel _ ⟨viewRel_total⟩ ⟨viewRel_trans⟩ v
  constructor
  · intro i j hi hj hU hlt
    by_contra hij
    push_neg at hij
    have hne : ((sortView v).get ⟨j, hj⟩).status ≠ "Unpaid" := by
      intro hh
      rw [hh] at hlt
      unfold statusLT at hlt
      rw [strLtB_irrefl] at hlt
      exact Bool.noConfusion hlt
    rcases lt_or_eq_of_le hij with hji | hji
    · have hrel := @List.Sorted.rel_get_of_lt _ _ _ hs ⟨j, hj⟩ ⟨i, hi⟩
        (Fin.mk_lt_mk.mpr hji)
      unfold viewRel viewLE at hrel
      have hne2 : ((sortView v).get ⟨j, hj⟩).status ≠
          ((sortView v).get ⟨i, hi⟩).status := by
        rw [hU]
        exact hne
      rw [if_neg hne2, hU] at hrel
      unfold statusLT at hrel hlt
      exact strLtB_asymm hrel hlt
    · subst hji
      exact hne hU
  · intro i j hi hj hij hstat
    have hrel := @List.Sorted.rel_get_of_lt _ _ _ hs ⟨i, hi⟩ ⟨j, hj⟩
      (Fin.mk_lt_mk.mpr hij)
    unfold viewRel viewLE at hrel
    rw [if_pos hstat] at hrel
    exact hrel

/-- Claim C3, witness: on the concrete view `[recP, recU]` the sorted
output places the `"Unpaid"` record at position 0, before the `"Paid"`
record. -/
theorem sortView_order_witness :
    ((sortView [recP, recU]).get ⟨0, by decide⟩).status = "Unpaid" ∧
    (0 : Nat) < 1 := by
  refine ⟨by decide, ?_⟩
  exact (sortView_order [recP, recU]).1 0 1 (by decide) (by decide)
    (by decide) (by decide)

/-- Claim C7: the published scoreboard is ordered descending by wins,
and two roster entries with equal win counts keep their original
`MAIN_CAST` order (the sort is stable), so the output order is a
function of the ledger alone. -/
theorem scoreboard_order (df : List BetRecord) :
    (∀ i j (hi : i < (scoreboard df).length)
      (hj : j < (scoreboard df).length), i < j →
      ((scoreboard df).get ⟨j, hj⟩).wins ≤
        ((scoreboard df).get ⟨i, hi⟩).wins) ∧
    (∀ i j (hi : i < MAIN_CAST.length) (hj : j < MAIN_CAST.length), i < j →
      (personStats df (MAIN_CAST.get ⟨i, hi⟩)).wins =
        (personStats df (MAIN_CAST.get ⟨j, hj⟩)).wins →
      List.Sublist
        [personStats df (MAIN_CAST.get ⟨i, hi⟩),
         personStats df (MAIN_CAST.get ⟨j, hj⟩)] (scoreboard df)) := by
  constructor
  · intro i j hi hj hij
    have hs : List.Sorted statsRel (scoreboard df) :=
      @List.sorted_insertionSort _ statsRel _ ⟨statsRel_total⟩
        ⟨statsRel_trans⟩ (statsRows df)
    have hrel := @List.Sorted.rel_get_of_lt _ _ _ hs ⟨i, hi⟩ ⟨j, hj⟩
      (Fin.mk_lt_mk.mpr hij)
    simpa [statsRel, statsLE] using hrel
  · intro i j hi hj hij heq
    have hsub : List.Sublist
        [MAIN_CAST.get ⟨i, hi⟩, MAIN_CAST.get ⟨j, hj⟩] MAIN_CAST :=
      pair_get_sublist MAIN_CAST i j hi hj hij
    have hsub2 : List.Sublist
        [personStats df (MAIN_CAST.get ⟨i, hi⟩),
         personStats df (MAIN_CAST.get ⟨j, hj⟩)] (statsRows df) := by
      have hmap := List.Sublist.map (personStats df) hsub
      simpa [statsRows] using hmap
    have hab : statsRel (personStats df (MAIN_CAST.get ⟨i, hi⟩))
        (personStats df (MAIN_CAST.get ⟨j, hj⟩)) := by
      simp only [statsRel, statsLE, decide_eq_true_eq]
      omega
    exact List.pair_sublist_insertionSort hab hsub2

/-- Claim C7, witness: on the empty ledger every cast member has 0 wins,
and the first two cast members appear in roster order in the scoreboard. -/
theorem scoreboard_order_witness :
    List.Sublist [personStats [] "Dan Patrick", personStats [] "Paulie Pabst"]
      (scoreboard []) := by
  have h := (scoreboard_order []).2 0 1 (by decide) (by decide) (by decide)
    (by decide)
  exact h
